import Mathlib

/-!
Shallow embedding of the transfer engine of `src/main/aws/transfer-engine.ts`
(an Electron S3 client).  Pure values model the mutable module-level state of
the TypeScript file; every exported operation of the engine, and the
observable events of the asynchronous executors, are modelled as explicit
state-passing functions.  Machine numbers of the source are plain JavaScript
numbers used as counters and byte counts, embedded as `Nat` (and the active
counter, which the source can drive below zero, as `Int`).
-/

/-- Transfer status, `TransferStatus` of `src/shared/types.ts`. -/
inductive TransferStatus where
  | pending
  | active
  | paused
  | completed
  | failed
  | cancelled
deriving DecidableEq, Repr

/-- Transfer direction, `TransferDirection` of `src/shared/types.ts`. -/
inductive TransferDirection where
  | upload
  | download
deriving DecidableEq, Repr

/-- One transfer job, `TransferJob` of `src/shared/types.ts`.  The source id
is the string `transfer-<time>-<counter>`, process-unique through the counter;
it is embedded as the counter value. -/
structure TransferJob where
  id : Nat
  direction : TransferDirection
  localPath : String
  bucket : String
  key : String
  fileSize : Nat
  transferred : Nat
  speed : Nat
  status : TransferStatus
  error : Option String
  startedAt : Option Nat
  completedAt : Option Nat
deriving DecidableEq, Repr

/-- Engine settings, `TransferSettings` of `src/shared/types.ts`. -/
structure TransferSettings where
  partSizeMB : Nat
  concurrentThreads : Nat
  maxBandwidthKBps : Nat
  verifyChecksum : Bool
deriving DecidableEq, Repr

/-- Module initializer of `settings` (transfer-engine.ts lines 10-15). -/
def defaultSettings : TransferSettings :=
  { partSizeMB := 10, concurrentThreads := 4, maxBandwidthKBps := 0, verifyChecksum := false }

/-- Terminal-status test, the condition repeated at transfer-engine.ts
lines 35-37, 43, 71 and 302. -/
def isTerminal (s : TransferStatus) : Bool :=
  s == .completed || s == .failed || s == .cancelled

/-- Maximum number of completed/failed/cancelled jobs to keep in history
(transfer-engine.ts line 24). -/
def MAX_HISTORY_SIZE : Nat := 200

/-- Number of terminal jobs held in a queue, the `terminal.length` of
`pruneQueue` (transfer-engine.ts line 35). -/
def countTerminal (q : List TransferJob) : Nat :=
  (q.filter (fun j => isTerminal j.status)).length

/-- Number of jobs in `active` status held in a queue. -/
def countActive (q : List TransferJob) : Nat :=
  (q.filter (fun j => j.status == .active)).length

/-- Splice loop of `pruneQueue` (transfer-engine.ts lines 40-48): walk the
queue from the front and remove terminal jobs until `n` have been removed. -/
def dropOldestTerminal : Nat → List TransferJob → List TransferJob
  | 0, q => q
  | _ + 1, [] => []
  | n + 1, j :: q =>
    if isTerminal j.status then dropOldestTerminal n q
    else j :: dropOldestTerminal (n + 1) q

/-- `pruneQueue` (transfer-engine.ts lines 34-50): when more than
`MAX_HISTORY_SIZE` terminal jobs are held, remove the excess, oldest
(front-most) terminal jobs first. -/
def pruneQueue (q : List TransferJob) : List TransferJob :=
  if countTerminal q > MAX_HISTORY_SIZE then
    dropOldestTerminal (countTerminal q - MAX_HISTORY_SIZE) q
  else q

/-- Lookup in the `lastEmitTime` map (keyed by job id). -/
def lookupEmit (m : List (Nat × Nat)) (id : Nat) : Option Nat :=
  (m.find? (fun p => p.1 == id)).map (fun p => p.2)

/-- `Map.set` on `lastEmitTime`: overwrite the entry for `id`, or insert it. -/
def setEmit : List (Nat × Nat) → Nat → Nat → List (Nat × Nat)
  | [], id, t => [(id, t)]
  | p :: m, id, t => if p.1 = id then (id, t) :: m else p :: setEmit m id t

/-- `Map.delete` on `lastEmitTime`. -/
def delEmit (m : List (Nat × Nat)) (id : Nat) : List (Nat × Nat) :=
  m.filter (fun p => p.1 ≠ id)

/-- `emitProgress` (transfer-engine.ts lines 68-80), as a pure function of
the subscriber flag (`progressCallback !== null`), the `lastEmitTime` map,
the current wall clock and the job.  Returns the updated map and the snapshot
delivered to the subscriber, if any.  `Date.now() - last < 100` is embedded
with truncated `Nat` subtraction, which agrees with the source whenever
`now ≥ last` and likewise suppresses when `now < last`. -/
def emitProgress (progressCallbackSet : Bool) (lastEmitTime : List (Nat × Nat))
    (now : Nat) (job : TransferJob) : List (Nat × Nat) × Option TransferJob :=
  if !progressCallbackSet then (lastEmitTime, none)
  else if !(isTerminal job.status) then
    let last := (lookupEmit lastEmitTime job.id).getD 0
    if now - last < 100 then (lastEmitTime, none)
    else (setEmit lastEmitTime job.id now, some job)
  else
    (setEmit (delEmit lastEmitTime job.id) job.id now, some job)

/-- Mutable module-level state of transfer-engine.ts: `settings` (line 10),
`queue` (line 17), `activeCount` (line 18, an `Int` because the source can
decrement it below zero), `abortControllers` (line 19, embedded as the set of
registered ids), `lastEmitTime` (line 20), `progressCallback` (line 21,
embedded as a presence flag), `jobIdCounter` (line 26).  `running` records
the ids of executors launched and not yet settled; it is the bookkeeping
needed to say which completion events can still occur. -/
structure EngineState where
  settings : TransferSettings
  queue : List TransferJob
  activeCount : Int
  abortControllers : List Nat
  lastEmitTime : List (Nat × Nat)
  progressCallbackSet : Bool
  jobIdCounter : Nat
  running : List Nat
deriving DecidableEq, Repr

/-- Initial module state of transfer-engine.ts (the callback flag says
whether `setProgressCallback` was called). -/
def initState (st : TransferSettings) (cb : Bool) : EngineState :=
  { settings := st, queue := [], activeCount := 0, abortControllers := [],
    lastEmitTime := [], progressCallbackSet := cb, jobIdCounter := 0, running := [] }

/-- Run `emitProgress` against the engine state, keeping the updated map. -/
def engineEmit (now : Nat) (job : TransferJob) (s : EngineState) : EngineState :=
  { s with lastEmitTime := (emitProgress s.progressCallbackSet s.lastEmitTime now job).1 }

/-- `queue.find((j) => j.status === 'pending')` together with the in-place
promotion of transfer-engine.ts lines 85-89: mark the first pending job
`active`, stamp `startedAt`, and return the updated queue with the promoted
job; `none` when no job is pending. -/
def promoteFirstPending (now : Nat) : List TransferJob → Option (List TransferJob × TransferJob)
  | [] => none
  | j :: rest =>
    if j.status = .pending then
      let j' := { j with status := .active, startedAt := some now }
      some (j' :: rest, j')
    else
      match promoteFirstPending now rest with
      | none => none
      | some (rest', jp) => some (j :: rest', jp)

/-- `Map.set` semantics for `abortControllers`: at most one entry per id. -/
def addController (id : Nat) (l : List Nat) : List Nat :=
  if id ∈ l then l else id :: l

/-- Effect of one dispatcher iteration after the promotion (transfer-engine.ts
lines 87-104): store the promoted queue, bump `activeCount`, emit, and launch
the executor.  Launching is embedded as recording the job id in `running`;
the executor registers its abort controller when it starts (transfer-engine.ts
lines 112-113 and 162-163), which is folded into the launch here. -/
def launchStep (now : Nat) (q' : List TransferJob) (j' : TransferJob) (s : EngineState) :
    EngineState :=
  let s1 := { s with queue := q', activeCount := s.activeCount + 1 }
  let s2 := engineEmit now j' s1
  { s2 with running := j'.id :: s2.running,
            abortControllers := addController j'.id s2.abortControllers }

/-- Loop body of `processQueue` (transfer-engine.ts lines 82-106), with fuel
bounding the number of iterations; the loop promotes one pending job per
iteration, so `queue.length` fuel is always enough. -/
def processQueueGo (now : Nat) : Nat → EngineState → EngineState
  | 0, s => s
  | fuel + 1, s =>
    if s.activeCount < (s.settings.concurrentThreads : Int) then
      match promoteFirstPending now s.queue with
      | none => s
      | some (q', j') => processQueueGo now fuel (launchStep now q' j' s)
    else s

/-- `processQueue` (transfer-engine.ts lines 82-106). -/
def processQueue (now : Nat) (s : EngineState) : EngineState :=
  processQueueGo now s.queue.length s

/-- Split a character list on `/` separators. -/
def splitSlash : List Char → List (List Char)
  | [] => [[]]
  | c :: rest =>
    let r := splitSlash rest
    if c = '/' then [] :: r
    else
      match r with
      | [] => [[c]]
      | h :: t => (c :: h) :: t

/-- POSIX `path.basename` (Node `basename`, transfer-engine.ts line 217):
the last non-empty path component; `/` for all-slash paths and `\x22\x22`
for the empty path. -/
def basename (p : String) : String :=
  match ((splitSlash p.data).filter (fun s => s ≠ [])).getLast? with
  | some s => ⟨s⟩
  | none => if p.data = [] then "" else "/"

/-- Job value built by `enqueueUpload` (transfer-engine.ts lines 217-234).
`statSize` is the outcome of `statSync(localPath)`: `none` embeds the thrown
error that the source catches and ignores, leaving `fileSize = 0`.  The
object key is `prefix ? \x7bprefix\x7d\x7bfileName\x7d : fileName`: the bare
file name when the prefix is empty (falsy), otherwise the direct
concatenation. -/
def mkUploadJob (id : Nat) (localPath bucket pfx : String) (statSize : Option Nat) :
    TransferJob :=
  let fileName := basename localPath
  let fileSize := statSize.getD 0
  let key := if pfx = "" then fileName else pfx ++ fileName
  { id := id, direction := .upload, localPath := localPath, bucket := bucket, key := key,
    fileSize := fileSize, transferred := 0, speed := 0, status := .pending,
    error := none, startedAt := none, completedAt := none }

/-- Job value built by `enqueueDownload` (transfer-engine.ts lines 248-258). -/
def mkDownloadJob (id : Nat) (bucket key localPath : String) (fileSize : Nat) : TransferJob :=
  { id := id, direction := .download, localPath := localPath, bucket := bucket, key := key,
    fileSize := fileSize, transferred := 0, speed := 0, status := .pending,
    error := none, startedAt := none, completedAt := none }

/-- `enqueueUpload` (transfer-engine.ts lines 212-240): build the job, push
it, emit, run the dispatcher, and return the job.  The source returns the
live job object; after the synchronous dispatch its current value is the
last queue entry (dispatch preserves positions and enqueue never prunes), so
the returned snapshot is the final queue's last element. -/
def enqueueUpload (localPath bucket pfx : String) (statSize : Option Nat) (now : Nat)
    (s : EngineState) : EngineState × TransferJob :=
  let ctr := s.jobIdCounter + 1
  let job := mkUploadJob ctr localPath bucket pfx statSize
  let s1 := { s with jobIdCounter := ctr, queue := s.queue ++ [job] }
  let s2 := engineEmit now job s1
  let s3 := processQueue now s2
  (s3, s3.queue.getLast?.getD job)

/-- `enqueueDownload` (transfer-engine.ts lines 242-264). -/
def enqueueDownload (bucket key localPath : String) (fileSize : Nat) (now : Nat)
    (s : EngineState) : EngineState × TransferJob :=
  let ctr := s.jobIdCounter + 1
  let job := mkDownloadJob ctr bucket key localPath fileSize
  let s1 := { s with jobIdCounter := ctr, queue := s.queue ++ [job] }
  let s2 := engineEmit now job s1
  let s3 := processQueue now s2
  (s3, s3.queue.getLast?.getD job)

/-- In-place mutation of the job object found by `queue.find`: replace the
first job satisfying the predicate. -/
def updateFirst (p : TransferJob → Bool) (f : TransferJob → TransferJob) :
    List TransferJob → List TransferJob
  | [] => []
  | j :: rest => if p j then f j :: rest else j :: updateFirst p f rest

/-- `cancelTransfer` (transfer-engine.ts lines 266-276): no-op when the id is
absent; otherwise set the status to `cancelled` with no guard on the prior
status, abort and drop the controller when one is registered (`abort()` only
affects the external stream), and emit. -/
def cancelTransfer (jobId : Nat) (now : Nat) (s : EngineState) : EngineState :=
  match s.queue.find? (fun j => j.id == jobId) with
  | none => s
  | some j =>
    let j' := { j with status := .cancelled }
    let s1 := { s with queue := updateFirst (fun x => x.id == jobId) (fun _ => j') s.queue,
                       abortControllers := s.abortControllers.erase jobId }
    engineEmit now j' s1

/-- `pauseTransfer` (transfer-engine.ts lines 278-289): no-op unless the job
exists and is `active`; otherwise mark it `paused`, abort and drop the
controller, decrement `activeCount`, and emit.  The aborted executor keeps
running until its promise settles, so `running` is not touched. -/
def pauseTransfer (jobId : Nat) (now : Nat) (s : EngineState) : EngineState :=
  match s.queue.find? (fun j => j.id == jobId) with
  | none => s
  | some j =>
    if j.status = .active then
      let j' := { j with status := .paused }
      let s1 := { s with queue := updateFirst (fun x => x.id == jobId) (fun _ => j') s.queue,
                         abortControllers := s.abortControllers.erase jobId,
                         activeCount := s.activeCount - 1 }
      engineEmit now j' s1
    else s

/-- `resumeTransfer` (transfer-engine.ts lines 291-298): no-op unless the job
exists and is `paused`; otherwise put it back to `pending` with `transferred`
reset to 0, emit, and run the dispatcher. -/
def resumeTransfer (jobId : Nat) (now : Nat) (s : EngineState) : EngineState :=
  match s.queue.find? (fun j => j.id == jobId) with
  | none => s
  | some j =>
    if j.status = .paused then
      let j' := { j with status := .pending, transferred := 0 }
      let s1 := { s with queue := updateFirst (fun x => x.id == jobId) (fun _ => j') s.queue }
      processQueue now (engineEmit now j' s1)
    else s

/-- Mutation applied by a successful executor to its job (transfer-engine.ts
lines 141-146 for uploads and 196-200 for downloads): set `completed` and
stamp `completedAt`; for uploads only, also set `transferred = fileSize`. -/
def settleSuccess (now : Nat) (j : TransferJob) : TransferJob :=
  match j.direction with
  | .upload => { j with status := .completed, transferred := j.fileSize, completedAt := some now }
  | .download => { j with status := .completed, completedAt := some now }

/-- Mutation applied when an executor fails (transfer-engine.ts lines
147-152 and 201-206): set `failed` and record the error message. -/
def settleFailure (msg : String) (j : TransferJob) : TransferJob :=
  { j with status := .failed, error := some msg }

/-- Shared tail of an executor settling: the executor's own `finally` drops
the abort controller (transfer-engine.ts lines 153-155, 207-209) and the
completion handler attached in `processQueue` decrements `activeCount`,
prunes the queue and re-runs the dispatcher (lines 93-97, 99-103). -/
def executorFinally (jobId : Nat) (now : Nat) (s : EngineState) : EngineState :=
  let s1 := { s with abortControllers := s.abortControllers.erase jobId,
                     running := s.running.erase jobId,
                     activeCount := s.activeCount - 1 }
  processQueue now { s1 with queue := pruneQueue s1.queue }

/-- Event: a launched executor settles successfully.  Possible only while the
executor is in flight and its transfer was never aborted (an aborted upload
or download rejects instead).  The source mutates the job object it captured
at launch; when the job was already pruned from the queue that mutation is
unobservable, which the queue-lookup embedding reproduces.  The status
mutation and emission are guarded by `status !== 'cancelled'`
(transfer-engine.ts lines 141, 196); the `finally` work runs regardless. -/
def finishSuccess (jobId : Nat) (now : Nat) (s : EngineState) : EngineState :=
  if s.running.contains jobId && s.abortControllers.contains jobId then
    let s1 :=
      match s.queue.find? (fun j => j.id == jobId) with
      | none => s
      | some j =>
        if j.status = .cancelled then s
        else
          let j' := settleSuccess now j
          engineEmit now j'
            { s with queue := updateFirst (fun x => x.id == jobId) (fun _ => j') s.queue }
    executorFinally jobId now s1
  else s

/-- Event: a launched executor settles with an error (network failure, local
I/O failure, or the rejection produced by an abort).  Guarded by
`status !== 'cancelled'` (transfer-engine.ts lines 148, 202) — but not by
`paused`, so an abort raised by `pauseTransfer` marks the job `failed`. -/
def finishFailure (jobId : Nat) (msg : String) (now : Nat) (s : EngineState) : EngineState :=
  if s.running.contains jobId then
    let s1 :=
      match s.queue.find? (fun j => j.id == jobId) with
      | none => s
      | some j =>
        if j.status = .cancelled then s
        else
          let j' := settleFailure msg j
          engineEmit now j'
            { s with queue := updateFirst (fun x => x.id == jobId) (fun _ => j') s.queue }
    executorFinally jobId now s1
  else s

/-- Event: a progress callback of a running executor (transfer-engine.ts
lines 130-137 for uploads, 177-188 for downloads).  For uploads `amount` is
the absolute `progress.loaded`; for downloads it is the arriving chunk
length, accumulated into `transferred`.  No effect when the job is already
`cancelled`.  The source's floating-point `speed` is embedded with `Nat`
division over milliseconds; no claim depends on `speed`. -/
def progressEvent (jobId : Nat) (amount : Nat) (now : Nat) (s : EngineState) : EngineState :=
  if s.running.contains jobId then
    match s.queue.find? (fun j => j.id == jobId) with
    | none => s
    | some j =>
      if j.status = .cancelled then s
      else
        let loaded := match j.direction with
          | .upload => amount
          | .download => j.transferred + amount
        let elapsedMs := now - (j.startedAt.getD now)
        let j' := { j with transferred := loaded,
                           speed := if elapsedMs > 0 then loaded * 1000 / elapsedMs else 0 }
        engineEmit now j'
          { s with queue := updateFirst (fun x => x.id == jobId) (fun _ => j') s.queue }
  else s

/-- One engine operation: the exported operations of transfer-engine.ts plus
the observable events of the asynchronous executors.  Every operation carries
the wall clock (`Date.now()`) at which it runs. -/
inductive Op where
  | enqueueUpload (localPath bucket pfx : String) (statSize : Option Nat) (now : Nat)
  | enqueueDownload (bucket key localPath : String) (fileSize : Nat) (now : Nat)
  | cancel (jobId now : Nat)
  | pause (jobId now : Nat)
  | resume (jobId now : Nat)
  | finishOk (jobId now : Nat)
  | finishErr (jobId : Nat) (msg : String) (now : Nat)
  | chunk (jobId amount now : Nat)

/-- Interpret one operation on the engine state. -/
def applyOp : Op → EngineState → EngineState
  | .enqueueUpload lp b pfx sz now, s => (enqueueUpload lp b pfx sz now s).1
  | .enqueueDownload b k lp fs now, s => (enqueueDownload b k lp fs now s).1
  | .cancel id now, s => cancelTransfer id now s
  | .pause id now, s => pauseTransfer id now s
  | .resume id now, s => resumeTransfer id now s
  | .finishOk id now, s => finishSuccess id now s
  | .finishErr id msg now, s => finishFailure id msg now s
  | .chunk id amount now, s => progressEvent id amount now s

/-- Run a sequence of engine operations. -/
def run (ops : List Op) (s : EngineState) : EngineState :=
  ops.foldl (fun s op => applyOp op s) s

/-- Settings with a concurrency budget of two threads (the spec's smallest
legal value). -/
def settingsTwo : TransferSettings := { defaultSettings with concurrentThreads := 2 }

/-- Operation trace exhibiting the over-subscription bug: pause an active
upload, let its aborted executor reject, then enqueue two more uploads. -/
def c1ops : List Op :=
  [ .enqueueUpload "f1" "bkt" "" (some 10) 0,
    .enqueueUpload "f2" "bkt" "" (some 10) 1,
    .pause 1 2,
    .finishErr 1 "Upload aborted" 3,
    .enqueueUpload "f3" "bkt" "" (some 10) 4,
    .enqueueUpload "f4" "bkt" "" (some 10) 5 ]

/-- State with one completed upload job (id 1). -/
def c2state : EngineState :=
  run [.enqueueUpload "f" "b" "" (some 1) 0, .finishOk 1 1] (initState defaultSettings false)

/-- State with one download job (id 1, expected size 1000) completed before
any data chunk arrived. -/
def c4state : EngineState :=
  run [.enqueueDownload "b" "k" "lp" 1000 0, .finishOk 1 1] (initState defaultSettings false)

/-- State with one failed upload job (id 1, error `boom`) that was then
cancelled. -/
def c5state : EngineState :=
  run [.enqueueUpload "f" "b" "" (some 1) 0, .finishErr 1 "boom" 1, .cancel 1 2]
    (initState defaultSettings false)

/-- State with one upload job (id 1) paused while active, its aborted
executor not yet settled. -/
def c8mid : EngineState :=
  run [.enqueueUpload "f" "b" "" (some 1) 0, .pause 1 1] (initState defaultSettings false)

/-- One enqueue-download operation of the history overflow trace. -/
def c3enq : Op := .enqueueDownload "b" "k" "p" 0 0

/-- Job value of the `i`-th enqueued download of the history overflow trace. -/
def c3pend (i : Nat) : TransferJob := mkDownloadJob i "b" "k" "p" 0

/-- The same job after it was cancelled while `pending`. -/
def c3done (i : Nat) : TransferJob := { c3pend i with status := .cancelled }

/-- The same job after it was dispatched at time 0 and then cancelled. -/
def c3doneA (i : Nat) : TransferJob :=
  { c3pend i with status := .cancelled, startedAt := some 0 }

/-- Prelude of the history overflow trace: fill both concurrency slots and
cancel the two active jobs, so that every later enqueue stays `pending`. -/
def c3pre : List Op := [c3enq, c3enq, .cancel 1 0, .cancel 2 0]

/-- Engine state reached by `c3pre` from the initial state. -/
def c3SA : EngineState :=
  { settings := settingsTwo, queue := [c3doneA 1, c3doneA 2], activeCount := 2,
    abortControllers := [], lastEmitTime := [], progressCallbackSet := false,
    jobIdCounter := 2, running := [2, 1] }

/-- Continuation of the history overflow trace: `k` pairs of one enqueue and
one cancel of the job just enqueued (ids 3, 4, ...). -/
def c3ops : Nat → List Op
  | 0 => []
  | k + 1 => c3ops k ++ [c3enq, .cancel (3 + k) 0]

/-- Queue reached after `k` enqueue/cancel pairs from `c3SA`. -/
def c3queue (k : Nat) : List TransferJob :=
  [c3doneA 1, c3doneA 2] ++ (List.range k).map (fun i => c3done (3 + i))

/-- Engine state reached after `k` enqueue/cancel pairs from `c3SA`. -/
def c3mid (k : Nat) : EngineState :=
  { c3SA with queue := c3queue k, jobIdCounter := 2 + k }

/-- Engine state reached from `c3mid k` by the next enqueue alone. -/
def c3mid2 (k : Nat) : EngineState :=
  { c3mid k with queue := c3queue k ++ [c3pend (3 + k)], jobIdCounter := 3 + k }

/-- Complete history overflow trace: 201 jobs enqueued and cancelled, with no
executor ever settling. -/
def c3trace : List Op := c3pre ++ c3ops 199

/-- One job stuck in evolution relation between a queue and its image under
the dispatcher: either untouched, or promoted from `pending` to `active` with
`startedAt` stamped at the dispatch time. -/
def Promotes (now : Nat) (j j' : TransferJob) : Prop :=
  j' = j ∨ (j.status = .pending ∧ j' = { j with status := .active, startedAt := some now })

/-- Concrete non-terminal job used to instantiate emitter theorems. -/
def pendJobW : TransferJob :=
  { id := 9, direction := .upload, localPath := "w", bucket := "b", key := "k",
    fileSize := 5, transferred := 0, speed := 0, status := .pending,
    error := none, startedAt := none, completedAt := none }

/-- Concrete cancelled job used to instantiate emitter theorems. -/
def termJobW : TransferJob := { pendJobW with id := 7, status := .cancelled }

/-- Concrete active upload job used to instantiate executor theorems. -/
def activeJobW : TransferJob :=
  { pendJobW with id := 3, status := .active, startedAt := some 0, transferred := 2 }

/-- Concrete engine state with an exhausted concurrency budget, used to
instantiate enqueue theorems. -/
def fullStateW : EngineState := { initState defaultSettings false with activeCount := 4 }

/-- Running an empty operation list is the identity. -/
lemma run_nil (s : EngineState) : run [] s = s := rfl

/-- Running a cons: apply the head, then the tail. -/
lemma run_cons (op : Op) (ops : List Op) (s : EngineState) :
    run (op :: ops) s = run ops (applyOp op s) := rfl

/-- Running an appended list runs the two halves in order. -/
lemma run_append (a b : List Op) (s : EngineState) : run (a ++ b) s = run b (run a s) :=
  List.foldl_append _ _ a b

/-- Without a subscriber, `emitProgress` changes nothing. -/
lemma engineEmit_of_not_cb {s : EngineState} (h : s.progressCallbackSet = false)
    (now : Nat) (j : TransferJob) : engineEmit now j s = s := by
  obtain ⟨st, q, a, ab, le, cb, ctr, r⟩ := s
  simp only at h
  subst h
  simp [engineEmit, emitProgress]

/-- The dispatcher is a no-op when the concurrency budget is exhausted. -/
lemma processQueueGo_of_ge {s : EngineState} (fuel now : Nat)
    (h : (s.settings.concurrentThreads : Int) ≤ s.activeCount) :
    processQueueGo now fuel s = s := by
  cases fuel <;> simp [processQueueGo, not_lt.mpr h]

/-- The dispatcher is a no-op when the concurrency budget is exhausted. -/
lemma processQueue_of_ge {s : EngineState} (now : Nat)
    (h : (s.settings.concurrentThreads : Int) ≤ s.activeCount) :
    processQueue now s = s :=
  processQueueGo_of_ge _ _ h

/-- The launch step installs the promoted queue. -/
lemma launchStep_queue (now : Nat) (q' : List TransferJob) (j' : TransferJob)
    (s : EngineState) : (launchStep now q' j' s).queue = q' := rfl

lemma Promotes.rfl_self (now : Nat) (j : TransferJob) : Promotes now j j := Or.inl rfl

lemma Promotes.trans {now : Nat} {a b c : TransferJob} :
    Promotes now a b → Promotes now b c → Promotes now a c := by
  rintro (rfl | ⟨ha, rfl⟩) h2
  · exact h2
  · rcases h2 with rfl | ⟨hb, rfl⟩
    · exact Or.inr ⟨ha, rfl⟩
    · exact absurd hb (by simp)

lemma forall₂_promotes_refl (now : Nat) (q : List TransferJob) :
    List.Forall₂ (Promotes now) q q :=
  List.forall₂_same.mpr (fun x _ => Promotes.rfl_self now x)

lemma forall₂_promotes_trans {now : Nat} :
    ∀ {a b c : List TransferJob}, List.Forall₂ (Promotes now) a b →
      List.Forall₂ (Promotes now) b c → List.Forall₂ (Promotes now) a c := by
  intro a b c h1
  induction h1 generalizing c with
  | nil => intro h2; cases h2; exact .nil
  | cons hr _ ih =>
    intro h2
    cases h2 with
    | cons hr2 ht2 => exact .cons (hr.trans hr2) (ih ht2)

lemma promoteFirstPending_forall₂ {now : Nat} :
    ∀ {q q' : List TransferJob} {jp : TransferJob},
      promoteFirstPending now q = some (q', jp) → List.Forall₂ (Promotes now) q q' := by
  intro q
  induction q with
  | nil => intro q' jp h; simp [promoteFirstPending] at h
  | cons j rest ih =>
    intro q' jp h
    unfold promoteFirstPending at h
    split at h
    · rename_i hp
      simp only [Option.some.injEq, Prod.mk.injEq] at h
      obtain ⟨h1, _⟩ := h
      subst h1
      exact .cons (Or.inr ⟨hp, rfl⟩) (forall₂_promotes_refl now rest)
    · cases hrec : promoteFirstPending now rest with
      | none => rw [hrec] at h; simp at h
      | some pr =>
        obtain ⟨rest', jp'⟩ := pr
        rw [hrec] at h
        simp only [Option.some.injEq, Prod.mk.injEq] at h
        obtain ⟨h1, _⟩ := h
        subst h1
        exact .cons (Promotes.rfl_self now j) (ih hrec)

lemma processQueueGo_forall₂ (now : Nat) :
    ∀ (fuel : Nat) (s : EngineState),
      List.Forall₂ (Promotes now) s.queue (processQueueGo now fuel s).queue := by
  intro fuel
  induction fuel with
  | zero => intro s; exact forall₂_promotes_refl now s.queue
  | succ n ih =>
    intro s
    unfold processQueueGo
    split
    · cases hpf : promoteFirstPending now s.queue with
      | none => simp only [hpf]; exact forall₂_promotes_refl now s.queue
      | some pr =>
        obtain ⟨q', j'⟩ := pr
        simp only [hpf]
        exact forall₂_promotes_trans (promoteFirstPending_forall₂ hpf)
          (by simpa [launchStep_queue] using ih (launchStep now q' j' s))
    · exact forall₂_promotes_refl now s.queue

lemma processQueue_forall₂ (now : Nat) (s : EngineState) :
    List.Forall₂ (Promotes now) s.queue (processQueue now s).queue :=
  processQueueGo_forall₂ now s.queue.length s

lemma Promotes.id_eq {now : Nat} {j j' : TransferJob} (h : Promotes now j j') :
    j'.id = j.id := by rcases h with rfl | ⟨_, rfl⟩ <;> rfl

lemma Promotes.key_eq {now : Nat} {j j' : TransferJob} (h : Promotes now j j') :
    j'.key = j.key := by rcases h with rfl | ⟨_, rfl⟩ <;> rfl

lemma Promotes.fileSize_eq {now : Nat} {j j' : TransferJob} (h : Promotes now j j') :
    j'.fileSize = j.fileSize := by rcases h with rfl | ⟨_, rfl⟩ <;> rfl

lemma Promotes.status_eq_or {now : Nat} {j j' : TransferJob} (h : Promotes now j j') :
    j'.status = j.status ∨ (j.status = .pending ∧ j'.status = .active) := by
  rcases h with rfl | ⟨hp, rfl⟩
  · exact Or.inl rfl
  · exact Or.inr ⟨hp, rfl⟩

lemma Promotes.isTerminal_eq {now : Nat} {j j' : TransferJob} (h : Promotes now j j') :
    isTerminal j'.status = isTerminal j.status := by
  rcases h.status_eq_or with he | ⟨h1, h2⟩
  · rw [he]
  · rw [h1, h2]; rfl

lemma countTerminal_cons (j : TransferJob) (q : List TransferJob) :
    countTerminal (j :: q) = (if isTerminal j.status then 1 else 0) + countTerminal q := by
  simp only [countTerminal, List.filter_cons]
  split <;> simp [Nat.add_comm]

lemma countTerminal_append (a b : List TransferJob) :
    countTerminal (a ++ b) = countTerminal a + countTerminal b := by
  simp [countTerminal, List.filter_append]

lemma countTerminal_of_forall₂ {now : Nat} :
    ∀ {a b : List TransferJob}, List.Forall₂ (Promotes now) a b →
      countTerminal b = countTerminal a := by
  intro a b h
  induction h with
  | nil => rfl
  | cons hr _ ih => rw [countTerminal_cons, countTerminal_cons, hr.isTerminal_eq, ih]

lemma forall₂_promotes_getLast? {now : Nat} :
    ∀ {a b : List TransferJob}, List.Forall₂ (Promotes now) a b →
      ∀ {x : TransferJob}, a.getLast? = some x →
        ∃ y, b.getLast? = some y ∧ Promotes now x y := by
  intro a b h
  induction h with
  | nil => intro x hx; simp at hx
  | @cons x' y' l₁ l₂ hr ht ih =>
    intro x hx
    cases ht with
    | nil =>
      simp only [List.getLast?_singleton, Option.some.injEq] at hx
      subst hx
      exact ⟨y', by simp, hr⟩
    | @cons a₂ b₂ t₁ t₂ hr2 ht2 =>
      rw [List.getLast?_cons_cons] at hx
      obtain ⟨y, hy, hrel⟩ := ih hx
      exact ⟨y, by rw [List.getLast?_cons_cons]; exact hy, hrel⟩

lemma filter_terminal_dropOldestTerminal :
    ∀ (q : List TransferJob) (n : Nat),
      (dropOldestTerminal n q).filter (fun j => isTerminal j.status) =
        ((q.filter (fun j => isTerminal j.status)).drop n) := by
  intro q
  induction q with
  | nil => intro n; cases n <;> simp [dropOldestTerminal]
  | cons j rest ih =>
    intro n
    cases n with
    | zero => simp [dropOldestTerminal]
    | succ m =>
      by_cases ht : isTerminal j.status
      · simp [dropOldestTerminal, ht, List.filter_cons, ih m]
      · simp [dropOldestTerminal, ht, List.filter_cons, ih (m + 1)]

lemma filter_nonterminal_dropOldestTerminal :
    ∀ (q : List TransferJob) (n : Nat),
      (dropOldestTerminal n q).filter (fun j => !(isTerminal j.status)) =
        q.filter (fun j => !(isTerminal j.status)) := by
  intro q
  induction q with
  | nil => intro n; cases n <;> simp [dropOldestTerminal]
  | cons j rest ih =>
    intro n
    cases n with
    | zero => simp [dropOldestTerminal]
    | succ m =>
      by_cases ht : isTerminal j.status
      · simp [dropOldestTerminal, ht, List.filter_cons, ih m]
      · simp [dropOldestTerminal, ht, List.filter_cons, ih (m + 1)]

lemma countTerminal_dropOldestTerminal (q : List TransferJob) (n : Nat) :
    countTerminal (dropOldestTerminal n q) = countTerminal q - n := by
  simp [countTerminal, filter_terminal_dropOldestTerminal q n]

lemma countTerminal_pruneQueue (q : List TransferJob) :
    countTerminal (pruneQueue q) = min (countTerminal q) MAX_HISTORY_SIZE := by
  unfold pruneQueue
  split
  · rename_i h
    rw [countTerminal_dropOldestTerminal]
    omega
  · rename_i h
    omega

lemma find?_append_none {p : TransferJob → Bool} :
    ∀ {l₁ : List TransferJob} (l₂ : List TransferJob),
      (∀ a ∈ l₁, p a = false) → (l₁ ++ l₂).find? p = l₂.find? p := by
  intro l₁
  induction l₁ with
  | nil => intro l₂ _; rfl
  | cons a t ih =>
    intro l₂ h
    have ha : p a = false := h a (List.mem_cons_self a t)
    simp only [List.cons_append, List.find?_cons, ha]
    exact ih l₂ (fun x hx => h x (List.mem_cons_of_mem a hx))

lemma find?_cons_true {p : TransferJob → Bool} {j : TransferJob} (l : List TransferJob)
    (h : p j = true) : (j :: l).find? p = some j := by
  simp [List.find?_cons, h]

lemma updateFirst_append_none {p : TransferJob → Bool} {f : TransferJob → TransferJob} :
    ∀ {l₁ : List TransferJob} (l₂ : List TransferJob),
      (∀ a ∈ l₁, p a = false) → updateFirst p f (l₁ ++ l₂) = l₁ ++ updateFirst p f l₂ := by
  intro l₁
  induction l₁ with
  | nil => intro l₂ _; rfl
  | cons a t ih =>
    intro l₂ h
    have ha : p a = false := h a (List.mem_cons_self a t)
    simp only [List.cons_append, updateFirst, ha, Bool.false_eq_true, if_false]
    exact congrArg (a :: ·) (ih l₂ (fun x hx => h x (List.mem_cons_of_mem a hx)))

lemma updateFirst_cons_true {p : TransferJob → Bool} {f : TransferJob → TransferJob}
    {j : TransferJob} (l : List TransferJob) (h : p j = true) :
    updateFirst p f (j :: l) = f j :: l := by
  simp [updateFirst, h]

/-- `cancelTransfer` on a queue decomposed around the target job, with no
subscriber: the target's status becomes `cancelled` in place and its abort
controller entry is dropped. -/
lemma cancelTransfer_decomp (s : EngineState) {A B : List TransferJob} {j : TransferJob}
    (jobId now : Nat) (hq : s.queue = A ++ j :: B)
    (hA : ∀ a ∈ A, (a.id == jobId) = false) (hj : j.id = jobId)
    (hcb : s.progressCallbackSet = false) :
    cancelTransfer jobId now s =
      { s with queue := A ++ { j with status := .cancelled } :: B,
               abortControllers := s.abortControllers.erase jobId } := by
  unfold cancelTransfer
  rw [hq, find?_append_none _ hA, find?_cons_true _ (by simp [hj])]
  simp only
  rw [updateFirst_append_none _ hA, updateFirst_cons_true _ (by simp [hj])]
  rw [engineEmit_of_not_cb (by simpa using hcb)]

/-- `enqueueDownload` with the budget already exhausted and no subscriber:
the new pending job is appended and the id counter advances; nothing else
changes. -/
lemma enqueueDownload_of_full (s : EngineState) (b k lp : String) (fs now : Nat)
    (h : (s.settings.concurrentThreads : Int) ≤ s.activeCount)
    (hcb : s.progressCallbackSet = false) :
    (enqueueDownload b k lp fs now s).1 =
      { s with queue := s.queue ++ [mkDownloadJob (s.jobIdCounter + 1) b k lp fs],
               jobIdCounter := s.jobIdCounter + 1 } := by
  unfold enqueueDownload
  simp only
  rw [engineEmit_of_not_cb (by simpa using hcb)]
  rw [processQueue_of_ge _ (by simpa using h)]

lemma c3_pre_run : run c3pre (initState settingsTwo false) = c3SA := by decide

lemma c3queue_id_lt (k : Nat) : ∀ a ∈ c3queue k, a.id < 3 + k := by
  intro a ha
  simp only [c3queue, List.cons_append, List.nil_append, List.mem_cons, List.mem_map,
    List.mem_range] at ha
  rcases ha with rfl | rfl | ⟨i, hi, rfl⟩
  · show 1 < 3 + k; omega
  · show 2 < 3 + k; omega
  · show 3 + i < 3 + k; omega

lemma c3queue_succ (k : Nat) :
    c3queue (k + 1) = c3queue k ++ [c3done (3 + k)] := by
  simp [c3queue, List.range_succ]

lemma c3_run (k : Nat) : run (c3ops k) c3SA = c3mid k := by
  induction k with
  | zero => decide
  | succ k ih =>
    rw [show c3ops (k + 1) = c3ops k ++ [c3enq, .cancel (3 + k) 0] from rfl]
    rw [run_append, ih, run_cons, run_cons, run_nil]
    simp only [c3enq, applyOp]
    rw [enqueueDownload_of_full (c3mid k) "b" "k" "p" 0 0
      (by simp [c3mid, c3SA, settingsTwo, defaultSettings]) rfl]
    have h3 : (c3mid k).jobIdCounter + 1 = 3 + k := by
      simp only [c3mid]; omega
    rw [h3]
    show cancelTransfer (3 + k) 0 (c3mid2 k) = c3mid (k + 1)
    rw [cancelTransfer_decomp (c3mid2 k) (3 + k) 0
      (show (c3mid2 k).queue = c3queue k ++ c3pend (3 + k) :: [] from rfl)
      (fun a ha => by
        have := c3queue_id_lt k a ha
        exact beq_eq_false_iff_ne.mpr (Nat.ne_of_lt this))
      rfl rfl]
    simp only [c3mid, c3queue_succ]
    have h4 : 2 + (k + 1) = 3 + k := by omega
    rw [h4]
    rfl

lemma countTerminal_c3queue (k : Nat) : countTerminal (c3queue k) = 2 + k := by
  rw [c3queue, countTerminal_append]
  have h1 : countTerminal [c3doneA 1, c3doneA 2] = 2 := by decide
  have h2 : countTerminal ((List.range k).map fun i => c3done (3 + i)) = k := by
    rw [countTerminal, List.filter_eq_self.mpr ?_, List.length_map, List.length_range]
    intro a ha
    simp only [List.mem_map, List.mem_range] at ha
    obtain ⟨i, _, rfl⟩ := ha
    rfl
  rw [h1, h2]

lemma countTerminal_executorFinally_le (jobId now : Nat) (s : EngineState) :
    countTerminal (executorFinally jobId now s).queue ≤ MAX_HISTORY_SIZE := by
  unfold executorFinally
  rw [countTerminal_of_forall₂ (processQueue_forall₂ now _)]
  simp only
  rw [countTerminal_pruneQueue]
  exact Nat.min_le_right _ _

lemma engineEmit_queue (now : Nat) (j : TransferJob) (s : EngineState) :
    (engineEmit now j s).queue = s.queue := rfl

lemma enqueueUpload_spec (s : EngineState) (lp b pfx : String) (sz : Option Nat) (now : Nat) :
    Promotes now (mkUploadJob (s.jobIdCounter + 1) lp b pfx sz)
        (enqueueUpload lp b pfx sz now s).2 ∧
    (enqueueUpload lp b pfx sz now s).1.queue.length = s.queue.length + 1 := by
  have hfst : (enqueueUpload lp b pfx sz now s).1 =
      processQueue now (engineEmit now (mkUploadJob (s.jobIdCounter + 1) lp b pfx sz)
        { s with jobIdCounter := s.jobIdCounter + 1,
                 queue := s.queue ++ [mkUploadJob (s.jobIdCounter + 1) lp b pfx sz] }) := rfl
  have hsnd : (enqueueUpload lp b pfx sz now s).2 =
      ((enqueueUpload lp b pfx sz now s).1.queue.getLast?).getD
        (mkUploadJob (s.jobIdCounter + 1) lp b pfx sz) := rfl
  have hrel := processQueue_forall₂ now
    (engineEmit now (mkUploadJob (s.jobIdCounter + 1) lp b pfx sz)
      { s with jobIdCounter := s.jobIdCounter + 1,
               queue := s.queue ++ [mkUploadJob (s.jobIdCounter + 1) lp b pfx sz] })
  have hlast : (s.queue ++ [mkUploadJob (s.jobIdCounter + 1) lp b pfx sz]).getLast? =
      some (mkUploadJob (s.jobIdCounter + 1) lp b pfx sz) := List.getLast?_concat _
  obtain ⟨y, hy, hpy⟩ := forall₂_promotes_getLast? hrel hlast
  constructor
  · rw [hsnd, hfst, hy]
    simpa using hpy
  · rw [hfst, ← hrel.length_eq]
    simp [engineEmit_queue]

lemma enqueueUpload_of_full (s : EngineState) (lp b pfx : String) (sz : Option Nat) (now : Nat)
    (h : (s.settings.concurrentThreads : Int) ≤ s.activeCount)
    (hcb : s.progressCallbackSet = false) :
    (enqueueUpload lp b pfx sz now s).1 =
      { s with queue := s.queue ++ [mkUploadJob (s.jobIdCounter + 1) lp b pfx sz],
               jobIdCounter := s.jobIdCounter + 1 } := by
  unfold enqueueUpload
  simp only
  rw [engineEmit_of_not_cb (by simpa using hcb)]
  rw [processQueue_of_ge _ (by simpa using h)]

lemma enqueueUpload_snd_of_ge (s : EngineState) (lp b pfx : String) (sz : Option Nat)
    (now : Nat) (h : (s.settings.concurrentThreads : Int) ≤ s.activeCount) :
    (enqueueUpload lp b pfx sz now s).2 = mkUploadJob (s.jobIdCounter + 1) lp b pfx sz := by
  have hge : ((engineEmit now (mkUploadJob (s.jobIdCounter + 1) lp b pfx sz)
      { s with jobIdCounter := s.jobIdCounter + 1,
               queue := s.queue ++ [mkUploadJob (s.jobIdCounter + 1) lp b pfx sz]
    }).settings.concurrentThreads : Int) ≤
      (engineEmit now (mkUploadJob (s.jobIdCounter + 1) lp b pfx sz)
      { s with jobIdCounter := s.jobIdCounter + 1,
               queue := s.queue ++ [mkUploadJob (s.jobIdCounter + 1) lp b pfx sz]
    }).activeCount := by simpa using h
  show ((processQueue now _).queue.getLast?).getD _ = _
  rw [processQueue_of_ge _ hge]
  rw [engineEmit_queue]
  simp only [List.getLast?_concat]
  rfl

lemma lookupEmit_setEmit (m : List (Nat × Nat)) (id t : Nat) :
    lookupEmit (setEmit m id t) id = some t := by
  induction m with
  | nil => simp [setEmit, lookupEmit]
  | cons p m ih =>
    by_cases h : p.1 = id
    · simp [setEmit, h, lookupEmit]
    · simp only [setEmit, h, if_false]
      simp only [lookupEmit, List.find?_cons] at ih ⊢
      have : (p.1 == id) = false := beq_eq_false_iff_ne.mpr h
      rw [this]
      exact ih

/-- Claim C1: the number of jobs in `active` status never exceeds
`concurrentThreads`.  The code violates this: `pauseTransfer` decrements
`activeCount` and the aborted executor's completion handler decrements it
again, so after one pause the counter undercounts and two later enqueues
both dispatch — three jobs are `active` with a budget of two. -/
theorem c1_activeBudget_bug :
    settingsTwo.concurrentThreads = 2 ∧
    countActive (run c1ops (initState settingsTwo false)).queue = 3 := by
  constructor
  · rfl
  · decide

/-- Claim C2: terminal statuses are never changed by later operations.  The
code violates this: `cancelTransfer` has no guard on the prior status, so it
mutates a `completed` job to `cancelled`. -/
theorem c2_terminalImmutable_bug :
    ((c2state.queue.find? (fun j => j.id == 1)).map (fun j => j.status)
      = some .completed) ∧
    (((cancelTransfer 1 2 c2state).queue.find? (fun j => j.id == 1)).map (fun j => j.status)
      = some .cancelled) := by
  constructor
  · decide
  · decide

/-- Claim C3, counterexample: the count of terminal jobs in the queue can
exceed the ceiling of 200, because `cancelTransfer` produces terminal jobs
without triggering a pruning pass.  The trace enqueues and cancels 201
downloads with no executor ever settling; all 201 cancelled jobs stay in the
queue. -/
theorem c3_historyCeiling_counterexample :
    MAX_HISTORY_SIZE < countTerminal (run c3trace (initState settingsTwo false)).queue := by
  rw [show c3trace = c3pre ++ c3ops 199 from rfl, run_append, c3_pre_run, c3_run 199]
  rw [show (c3mid 199).queue = c3queue 199 from rfl, countTerminal_c3queue]
  norm_num [MAX_HISTORY_SIZE]

/-- Claim C3 (amended): `pruneQueue` caps the terminal count at
`MAX_HISTORY_SIZE` (exactly, when it was exceeded), never removes a
non-terminal job, and evicts the oldest (front-most) terminal jobs first;
every executor completion runs a pruning pass, so after any completion event
the terminal count is at most `max` of its previous value and the ceiling —
but `cancelTransfer` does not prune, so cancellations can push the terminal
count above the ceiling until the next completion. -/
theorem c3_pruning_amended :
    (∀ q, countTerminal (pruneQueue q) = min (countTerminal q) MAX_HISTORY_SIZE) ∧
    (∀ q, (pruneQueue q).filter (fun j => !(isTerminal j.status)) =
        q.filter (fun j => !(isTerminal j.status))) ∧
    (∀ q, (pruneQueue q).filter (fun j => isTerminal j.status) =
        (q.filter (fun j => isTerminal j.status)).drop (countTerminal q - MAX_HISTORY_SIZE)) ∧
    (∀ jobId now s, countTerminal (finishSuccess jobId now s).queue ≤
        max (countTerminal s.queue) MAX_HISTORY_SIZE) ∧
    (∀ jobId msg now s, countTerminal (finishFailure jobId msg now s).queue ≤
        max (countTerminal s.queue) MAX_HISTORY_SIZE) := by
  refine ⟨countTerminal_pruneQueue, ?_, ?_, ?_, ?_⟩
  · intro q
    unfold pruneQueue
    split
    · exact filter_nonterminal_dropOldestTerminal q _
    · rfl
  · intro q
    unfold pruneQueue
    split
    · exact filter_terminal_dropOldestTerminal q _
    · rename_i h
      rw [show countTerminal q - MAX_HISTORY_SIZE = 0 by omega, List.drop_zero]
  · intro jobId now s
    unfold finishSuccess
    split
    · exact le_trans (countTerminal_executorFinally_le _ _ _) (Nat.le_max_right _ _)
    · exact Nat.le_max_left _ _
  · intro jobId msg now s
    unfold finishFailure
    split
    · exact le_trans (countTerminal_executorFinally_le _ _ _) (Nat.le_max_right _ _)
    · exact Nat.le_max_left _ _

/-- Claim C4, counterexample: a download that completes normally does not
get `transferred` set to `fileSize` — the download completion path stamps
`completedAt` but leaves `transferred` at the accumulated byte count.  Here a
download with expected size 1000 completes with no chunk having arrived, so
`transferred` is 0 at the moment of the `active → completed` transition. -/
theorem c4_downloadTransferred_counterexample :
    ((c4state.queue.find? (fun j => j.id == 1)).map
      (fun j => (j.status, j.transferred, j.fileSize))) = some (.completed, 0, 1000) := by
  decide

/-- Claim C4 (amended): the successful-executor mutation always sets status
`completed` and stamps `completedAt`; it sets `transferred = fileSize` for
uploads, while for downloads `transferred` keeps the accumulated count. -/
theorem c4_settle_amended (j : TransferJob) (now : Nat) :
    (settleSuccess now j).status = .completed ∧
    (settleSuccess now j).completedAt = some now ∧
    (j.direction = .upload → (settleSuccess now j).transferred = j.fileSize) ∧
    (j.direction = .download → (settleSuccess now j).transferred = j.transferred) := by
  cases hd : j.direction <;> simp [settleSuccess, hd]

/-- Witness for `c4_settle_amended` at a concrete active upload job. -/
theorem c4_settle_amended_witness :
    (settleSuccess 5 activeJobW).status = .completed ∧
    (settleSuccess 5 activeJobW).transferred = activeJobW.fileSize :=
  ⟨(c4_settle_amended activeJobW 5).1, (c4_settle_amended activeJobW 5).2.2.1 (by decide)⟩

/-- Claim C5: `error` is present iff the status is `failed`.  The code
violates this: cancelling a failed job flips its status to `cancelled` but
leaves the error message in place, so a `cancelled` job carries an error. -/
theorem c5_errorIffFailed_bug :
    ((c5state.queue.find? (fun j => j.id == 1)).map (fun j => (j.status, j.error)))
      = some (.cancelled, some "boom") := by
  decide

/-- Claim C8: a paused job re-enters `failed` only through a fresh dispatch.
The code violates this: the executor's catch only guards against
`cancelled`, so the rejection produced by the pause-triggered abort marks
the still-paused job `failed` with an error message. -/
theorem c8_pausedBecomesFailed_bug :
    ((c8mid.queue.find? (fun j => j.id == 1)).map (fun j => j.status) = some .paused) ∧
    (((finishFailure 1 "Upload aborted" 2 c8mid).queue.find? (fun j => j.id == 1)).map
        (fun j => (j.status, j.error))
      = some (.failed, some "Upload aborted")) := by
  constructor
  · decide
  · decide

/-- Claim C6, counterexample: the terminal emission does not clear the
rate-limit timestamp for the job id — `emitProgress` deletes the entry but
immediately re-records it at the emission time.  After a terminal emission at
time 50 on an empty map, the timestamp for the id is recorded as 50. -/
theorem c6_timestampCleared_counterexample :
    (emitProgress true [] 50 termJobW).2 = some termJobW ∧
    lookupEmit (emitProgress true [] 50 termJobW).1 termJobW.id = some 50 := by
  constructor
  · decide
  · decide

/-- Claim C6 (amended): with a subscriber attached, a terminal-status
emission is always delivered and leaves the rate-limit timestamp for the id
recorded at the emission time (rather than cleared); a non-terminal emission
is suppressed, with the map unchanged, when less than 100ms have elapsed
since the recorded timestamp, and is delivered, recording the time, when at
least 100ms have elapsed. -/
theorem c6_emitter_amended (m : List (Nat × Nat)) (now : Nat) (j : TransferJob) :
    (isTerminal j.status = true →
      (emitProgress true m now j).2 = some j ∧
      lookupEmit (emitProgress true m now j).1 j.id = some now) ∧
    (isTerminal j.status = false →
      (now - ((lookupEmit m j.id).getD 0) < 100 →
        emitProgress true m now j = (m, none)) ∧
      (100 ≤ now - ((lookupEmit m j.id).getD 0) →
        (emitProgress true m now j).2 = some j ∧
        lookupEmit (emitProgress true m now j).1 j.id = some now)) := by
  constructor
  · intro ht
    unfold emitProgress
    simp [ht, lookupEmit_setEmit]
  · intro ht
    constructor
    · intro hlt
      unfold emitProgress
      simp [ht, hlt]
    · intro hge
      unfold emitProgress
      simp [ht, not_lt.mpr hge, lookupEmit_setEmit]

/-- Witness for `c6_emitter_amended`: a delivered terminal emission, a
suppressed close non-terminal emission, and a delivered spaced one. -/
theorem c6_emitter_amended_witness :
    ((emitProgress true [] 1000 termJobW).2 = some termJobW ∧
      lookupEmit (emitProgress true [] 1000 termJobW).1 termJobW.id = some 1000) ∧
    emitProgress true [(9, 950)] 1000 pendJobW = ([(9, 950)], none) ∧
    (emitProgress true [] 1000 pendJobW).2 = some pendJobW :=
  ⟨(c6_emitter_amended [] 1000 termJobW).1 (by decide),
    ((c6_emitter_amended [(9, 950)] 1000 pendJobW).2 (by decide)).1 (by decide),
    (((c6_emitter_amended [] 1000 pendJobW).2 (by decide)).2 (by decide)).1⟩

/-- Claim C7, counterexample: the job yielded by `enqueueUpload` is not in
`pending` status when a concurrency slot is free — the synchronous dispatch
has already promoted it, so the caller receives it as `active`. -/
theorem c7_pendingAtYield_counterexample :
    (enqueueUpload "report.pdf" "bkt" "" (some 5) 0
      (initState defaultSettings false)).2.status = .active := by
  decide

/-- Claim C7 (amended): `enqueueUpload` appends one new job, constructed in
`pending` status, and triggers dispatch synchronously before returning; the
status of the yielded job is therefore `pending` or `active` rather than
always `pending`, and it is the freshly constructed `pending` job whenever
the concurrency budget is already exhausted.  (A free slot does not
determine the yielded status: the dispatcher fills slots from the earlier
pending backlog first.) -/
theorem c7_enqueue_amended (s : EngineState) (lp b pfx : String) (sz : Option Nat)
    (now : Nat) :
    (mkUploadJob (s.jobIdCounter + 1) lp b pfx sz).status = .pending ∧
    (enqueueUpload lp b pfx sz now s).1.queue.length = s.queue.length + 1 ∧
    ((enqueueUpload lp b pfx sz now s).2.status = .pending ∨
      (enqueueUpload lp b pfx sz now s).2.status = .active) ∧
    ((s.settings.concurrentThreads : Int) ≤ s.activeCount →
      (enqueueUpload lp b pfx sz now s).2 = mkUploadJob (s.jobIdCounter + 1) lp b pfx sz) := by
  obtain ⟨hp, hlen⟩ := enqueueUpload_spec s lp b pfx sz now
  refine ⟨rfl, hlen, ?_, fun h => enqueueUpload_snd_of_ge s lp b pfx sz now h⟩
  rcases hp.status_eq_or with he | ⟨_, he⟩
  · left; rw [he]; rfl
  · right; exact he

/-- Witness for `c7_enqueue_amended` at a state whose budget is exhausted. -/
theorem c7_enqueue_amended_witness :
    ((mkUploadJob 1 "a" "b" "" (some 5)).status = .pending ∧
      (enqueueUpload "a" "b" "" (some 5) 0 fullStateW).1.queue.length =
        fullStateW.queue.length + 1 ∧
      ((enqueueUpload "a" "b" "" (some 5) 0 fullStateW).2.status = .pending ∨
        (enqueueUpload "a" "b" "" (some 5) 0 fullStateW).2.status = .active) ∧
      ((fullStateW.settings.concurrentThreads : Int) ≤ fullStateW.activeCount →
        (enqueueUpload "a" "b" "" (some 5) 0 fullStateW).2 =
          mkUploadJob 1 "a" "b" "" (some 5))) ∧
    (enqueueUpload "a" "b" "" (some 5) 0 fullStateW).2 = mkUploadJob 1 "a" "b" "" (some 5) :=
  ⟨c7_enqueue_amended fullStateW "a" "b" "" (some 5) 0,
    (c7_enqueue_amended fullStateW "a" "b" "" (some 5) 0).2.2.2 (by decide)⟩

/-- Claim C9: when the filesystem stat fails, `enqueueUpload` swallows the
failure and enqueues the job with `fileSize = 0`, constructed in `pending`
status; the embedding is a total function, so no error reaches the caller. -/
theorem c9_statFailure_swallowed (s : EngineState) (lp b pfx : String) (now : Nat) :
    (mkUploadJob (s.jobIdCounter + 1) lp b pfx none).fileSize = 0 ∧
    (mkUploadJob (s.jobIdCounter + 1) lp b pfx none).status = .pending ∧
    (enqueueUpload lp b pfx none now s).2.fileSize = 0 ∧
    (enqueueUpload lp b pfx none now s).1.queue.length = s.queue.length + 1 := by
  obtain ⟨hp, hlen⟩ := enqueueUpload_spec s lp b pfx none now
  exact ⟨rfl, rfl, by rw [hp.fileSize_eq]; rfl, hlen⟩

/-- Claim C10: the object key of an enqueued upload is the bare base name of
`localPath` when the prefix is empty, and the prefix concatenated directly
with the base name (no separator inserted) otherwise. -/
theorem c10_uploadKey (s : EngineState) (lp b pfx : String) (sz : Option Nat) (now : Nat) :
    (enqueueUpload lp b pfx sz now s).2.key =
      (if pfx = "" then basename lp else pfx ++ basename lp) := by
  obtain ⟨hp, _⟩ := enqueueUpload_spec s lp b pfx sz now
  rw [hp.key_eq]
  rfl
